import Mathlib

/-!
Verification of the Ward scan pipeline (github.com/eljakani/ward) against its
natural-language specification.  Each Go function relevant to the checked
claims is translated into an executable Lean definition; theorems below settle
the claims.

Conventions of the embedding:
* Go `string` is Lean `String`; `len` on strings is the UTF-8 byte length
  (`byteLen`).  Go byte slicing is modelled at the byte level where it matters.
* Go `int` is Lean `Int` (line numbers), other counters are `Nat`.
* Go maps iterated by `range` are modelled as association lists carrying
  the iteration order; map lookup is `List.lookup`.
* Fallible Go functions returning `(T, error)` become `Except String T`.
* `crypto/sha256` (Go standard library) is embedded below as pure `Nat`
  arithmetic following FIPS 180-4.
-/

namespace Ward

/-! ### Strings: Go standard-library helpers used by the embedded code -/

/-- UTF-8 encoding of one character, as byte values (Go `[]byte(string)`). -/
def utf8Bytes (c : Char) : List Nat :=
  let n := c.toNat
  if n < 128 then [n]
  else if n < 2048 then [192 + n / 64, 128 + n % 64]
  else if n < 65536 then [224 + n / 4096, 128 + (n / 64) % 64, 128 + n % 64]
  else [240 + n / 262144, 128 + (n / 4096) % 64, 128 + (n / 64) % 64, 128 + n % 64]

/-- Byte values of a string's UTF-8 encoding (Go `[]byte(s)`). -/
def strBytes (s : String) : List Nat :=
  s.data.flatMap utf8Bytes

/-- Go `len(s)` on a string: the number of UTF-8 bytes. -/
def byteLen (s : String) : Nat :=
  (strBytes s).length

/-- Go `strings.HasPrefix`. -/
def goHasPre (s p : String) : Bool :=
  p.data.isPrefixOf s.data

/-- Go `strings.HasSuffix`. -/
def goHasSuf (s p : String) : Bool :=
  p.data.isSuffixOf s.data

/-- Go `strings.TrimPrefix`: drops `p` from the front of `s` when present. -/
def goTrimPre (s p : String) : String :=
  if goHasPre s p then String.mk (s.data.drop p.data.length) else s

/-- ASCII lower-casing of one character (the fragment of Go `strings.ToLower`
exercised by the scanners; every literal it is compared against is ASCII). -/
def goLowerChar (c : Char) : Char :=
  if 65 ≤ c.toNat ∧ c.toNat ≤ 90 then Char.ofNat (c.toNat + 32) else c

/-- ASCII fragment of Go `strings.ToLower`. -/
def goToLower (s : String) : String :=
  String.mk (s.data.map goLowerChar)

/-- ASCII upper-casing of one character (fragment of Go `strings.ToUpper`). -/
def goUpperChar (c : Char) : Char :=
  if 97 ≤ c.toNat ∧ c.toNat ≤ 122 then Char.ofNat (c.toNat - 32) else c

/-- ASCII fragment of Go `strings.ToUpper`. -/
def goToUpper (s : String) : String :=
  String.mk (s.data.map goUpperChar)

/-- Splits a list into consecutive chunks of `size` elements; `fuel` bounds the
number of chunks (callers pass the list length, which always suffices). -/
def chunkFuel (size : Nat) : Nat → List α → List (List α)
  | _, [] => []
  | 0, _ => []
  | fuel + 1, l => l.take size :: chunkFuel size fuel (l.drop size)

/-- Consecutive chunks of `size` elements (loop `for i := 0; i < n; i += size`). -/
def chunkList (size : Nat) (l : List α) : List (List α) :=
  chunkFuel size l.length l

/-! ### SHA-256 (crypto/sha256), FIPS 180-4 over `Nat` mod 2^32 -/

/-- Reduction to a 32-bit word. -/
def w32 (x : Nat) : Nat := x % 4294967296

/-- Right rotation of a 32-bit word by `n`. -/
def rotr32 (n x : Nat) : Nat := w32 ((x >>> n) ||| (x <<< (32 - n)))

/-- SHA-256 round constants (FIPS 180-4 table, in decimal). -/
def shaK : List Nat :=
  [1116352408, 1899447441, 3049323471, 3921009573, 961987163, 1508970993,
   2453635748, 2870763221, 3624381080, 310598401, 607225278, 1426881987,
   1925078388, 2162078206, 2614888103, 3248222580, 3835390401, 4022224774,
   264347078, 604807628, 770255983, 1249150122, 1555081692, 1996064986,
   2554220882, 2821834349, 2952996808, 3210313671, 3336571891, 3584528711,
   113926993, 338241895, 666307205, 773529912, 1294757372, 1396182291,
   1695183700, 1986661051, 2177026350, 2456956037, 2730485921, 2820302411,
   3259730800, 3345764771, 3516065817, 3600352804, 4094571909, 275423344,
   430227734, 506948616, 659060556, 883997877, 958139571, 1322822218,
   1537002063, 1747873779, 1955562222, 2024104815, 2227730452, 2361852424,
   2428436474, 2756734187, 3204031479, 3329325298]

/-- SHA-256 initial hash value (in decimal). -/
def shaH0 : List Nat :=
  [1779033703, 3144134277, 1013904242, 2773480762,
   1359893119, 2600822924, 528734635, 1541459225]

/-- Big-endian 4-byte decomposition of 16-word groups (message block → words). -/
def bytesToWords : List Nat → List Nat
  | b0 :: b1 :: b2 :: b3 :: rest => (((b0 * 256 + b1) * 256 + b2) * 256 + b3) :: bytesToWords rest
  | _ => []

/-- Big-endian 8-byte encoding of the message bit length. -/
def be8 (n : Nat) : List Nat :=
  [(n >>> 56) % 256, (n >>> 48) % 256, (n >>> 40) % 256, (n >>> 32) % 256,
   (n >>> 24) % 256, (n >>> 16) % 256, (n >>> 8) % 256, n % 256]

/-- Big-endian 4-byte encoding of a 32-bit word. -/
def be4 (n : Nat) : List Nat :=
  [(n >>> 24) % 256, (n >>> 16) % 256, (n >>> 8) % 256, n % 256]

/-- SHA-256 message padding: 0x80, zero fill to 56 mod 64, 64-bit bit length. -/
def padMsg (msg : List Nat) : List Nat :=
  let l := msg.length
  let zeros := (64 + 56 - (l + 1) % 64) % 64
  msg ++ 128 :: (List.replicate zeros 0 ++ be8 (8 * l))

/-- One message-schedule extension step: appends word `w.size` of the schedule. -/
def schedStep (w : Array Nat) : Array Nat :=
  let i := w.size
  let x15 := w.getD (i - 15) 0
  let x2 := w.getD (i - 2) 0
  let s0 := (rotr32 7 x15) ^^^ (rotr32 18 x15) ^^^ (x15 >>> 3)
  let s1 := (rotr32 17 x2) ^^^ (rotr32 19 x2) ^^^ (x2 >>> 10)
  w.push (w32 (w.getD (i - 16) 0 + s0 + w.getD (i - 7) 0 + s1))

/-- Iterates the schedule extension `n` times (the loop `for i := 16; i < 64`). -/
def extendSched : Nat → Array Nat → Array Nat
  | 0, w => w
  | n + 1, w => extendSched n (schedStep w)

/-- Working registers of the SHA-256 compression function. -/
structure ShaRegs where
  ra : Nat
  rb : Nat
  rc : Nat
  rd : Nat
  re : Nat
  rf : Nat
  rg : Nat
  rh : Nat

/-- One round of the SHA-256 compression function. -/
def shaRound (r : ShaRegs) (kw : Nat × Nat) : ShaRegs :=
  let s1 := (rotr32 6 r.re) ^^^ (rotr32 11 r.re) ^^^ (rotr32 25 r.re)
  let ch := (r.re &&& r.rf) ^^^ ((r.re ^^^ 4294967295) &&& r.rg)
  let t1 := w32 (r.rh + s1 + ch + kw.1 + kw.2)
  let s0 := (rotr32 2 r.ra) ^^^ (rotr32 13 r.ra) ^^^ (rotr32 22 r.ra)
  let mj := (r.ra &&& r.rb) ^^^ (r.ra &&& r.rc) ^^^ (r.rb &&& r.rc)
  let t2 := w32 (s0 + mj)
  ⟨w32 (t1 + t2), r.ra, r.rb, r.rc, w32 (r.rd + t1), r.re, r.rf, r.rg⟩

/-- Compression of one 64-byte block into the running hash. -/
def processBlock (hs : List Nat) (block : List Nat) : List Nat :=
  let ws := extendSched 48 (Array.mk (bytesToWords block))
  let r0 : ShaRegs :=
    ⟨hs.getD 0 0, hs.getD 1 0, hs.getD 2 0, hs.getD 3 0,
     hs.getD 4 0, hs.getD 5 0, hs.getD 6 0, hs.getD 7 0⟩
  let r := (shaK.zip ws.toList).foldl shaRound r0
  [w32 (hs.getD 0 0 + r.ra), w32 (hs.getD 1 0 + r.rb), w32 (hs.getD 2 0 + r.rc),
   w32 (hs.getD 3 0 + r.rd), w32 (hs.getD 4 0 + r.re), w32 (hs.getD 5 0 + r.rf),
   w32 (hs.getD 6 0 + r.rg), w32 (hs.getD 7 0 + r.rh)]

/-- SHA-256 digest of a byte sequence, as 32 byte values. -/
def sha256 (msg : List Nat) : List Nat :=
  ((chunkList 64 (padMsg msg)).foldl processBlock shaH0).flatMap be4

/-- Lowercase hex digit. -/
def hexDigit (n : Nat) : Char :=
  if n < 10 then Char.ofNat (48 + n) else Char.ofNat (87 + n)

/-- Lowercase hex of one byte (Go `fmt.Sprintf("%x", ...)` per byte). -/
def hexByte (b : Nat) : List Char :=
  [hexDigit (b / 16), hexDigit (b % 16)]

/-- Lowercase hex string of a byte sequence. -/
def hexOfBytes (bs : List Nat) : String :=
  String.mk (bs.flatMap hexByte)

/-! ### internal/models: Severity and Finding -/

/-- Severity levels (internal/models/severity.go); the five defined values of
the Go `type Severity int` constants `SeverityInfo .. SeverityCritical`. -/
inductive Severity where
  | info
  | low
  | medium
  | high
  | critical
  deriving DecidableEq, Repr

/-- The underlying Go integer of a severity constant (`iota` order). -/
def Severity.toNat : Severity → Nat
  | .info => 0
  | .low => 1
  | .medium => 2
  | .high => 3
  | .critical => 4

/-- Go `Severity.String()`. -/
def Severity.str : Severity → String
  | .info => "Info"
  | .low => "Low"
  | .medium => "Medium"
  | .high => "High"
  | .critical => "Critical"

/-- Finding (internal/models/finding.go). -/
structure Finding where
  ID : String
  Title : String
  Description : String
  Severity : Severity
  Category : String
  Scanner : String
  File : String
  Line : Int
  CodeSnippet : String
  Remediation : String
  References : List String
  deriving DecidableEq, Repr

/-- Fingerprint (finding.go): first 12 bytes of SHA-256 of `id:file:line`,
written as 24 lowercase hex characters. -/
def Finding.fingerprint (f : Finding) : String :=
  hexOfBytes ((sha256 (strBytes (f.ID ++ ":" ++ f.File ++ ":" ++ toString f.Line))).take 12)

/-! ### internal/baseline -/

/-- Baseline entry (baseline.go). -/
structure Entry where
  fingerprint : String
  id : String
  file : String
  line : Int
  title : String
  severity : String
  deriving DecidableEq, Repr

/-- Baseline (baseline.go).  `createdAt`/`updatedAt` model `time.Time` as an
abstract clock value.  `fingerprints` is the unexported in-memory lookup map,
`none` when the map is nil (as after `Save` or a fresh unmarshal). -/
structure Baseline where
  version : String
  createdAt : Nat
  updatedAt : Nat
  entries : List Entry
  fingerprints : Option (List String)
  deriving DecidableEq, Repr

/-- Entry built by `Save` for one finding. -/
def entryOf (f : Finding) : Entry :=
  ⟨f.fingerprint, f.ID, f.File, f.Line, f.Title, f.Severity.str⟩

/-- Baseline value marshalled by `baseline.Save` (the JSON document written to
disk); `now` is the wall clock passed to the two `time.Now()` calls. -/
def baselineSave (now : Nat) (findings : List Finding) : Baseline :=
  ⟨"1.0", now, now, findings.map entryOf, none⟩

/-- Baseline produced by `baseline.Load` from a parsed file.  The
`encoding/json` marshal/unmarshal round trip is the identity on the exported
fields, so `Load` is modelled on the stored `Baseline` value directly: it
rebuilds the fingerprint lookup set from the entries. -/
def baselineLoad (b : Baseline) : Baseline :=
  { b with fingerprints := some (b.entries.map (fun e => e.fingerprint)) }

/-- Go `(b *Baseline).IsBaselined`; `none` is the nil receiver. -/
def isBaselined (b : Option Baseline) (f : Finding) : Bool :=
  match b with
  | none => false
  | some bb =>
    match bb.fingerprints with
    | none => false
    | some fps => fps.contains f.fingerprint

/-- Loop of `Filter`: partitions findings against the baseline in order,
returning the kept list and the suppressed count. -/
def filterLoop (bb : Baseline) : List Finding → List Finding × Nat
  | [] => ([], 0)
  | f :: rest =>
    let (kept, sup) := filterLoop bb rest
    if isBaselined (some bb) f then (kept, sup + 1) else (f :: kept, sup)

/-- Go `(b *Baseline).Filter`: `(kept, suppressed)`; `none` is the nil
receiver, the identity filter. -/
def baselineFilter (b : Option Baseline) (findings : List Finding) : List Finding × Nat :=
  match b with
  | none => (findings, 0)
  | some bb => filterLoop bb findings

/-! ### internal/orchestrator -/

/-- Deduplication key (orchestrator.go `deduplicate`):
`f.ID + "|" + f.File + "|" + fmt.Sprintf("%d", f.Line)`. -/
def goKey (f : Finding) : String :=
  f.ID ++ "|" ++ f.File ++ "|" ++ toString f.Line

/-- Loop body of `deduplicate`, with the `seen` set as an accumulator. -/
def dedupLoop : List Finding → List String → List Finding
  | [], _ => []
  | f :: rest, seen =>
    if seen.contains (goKey f) then dedupLoop rest seen
    else f :: dedupLoop rest (goKey f :: seen)

/-- Go `deduplicate` (orchestrator.go): keeps the first finding per key. -/
def deduplicate (findings : List Finding) : List Finding :=
  dedupLoop findings []

/-- Go `filterBySeverity` (orchestrator.go). -/
def filterBySeverity (findings : List Finding) (minSeverity : Severity) : List Finding :=
  if minSeverity = .info then findings
  else findings.filter (fun f => minSeverity.toNat ≤ f.Severity.toNat)

/-! ### internal/config: rule loading -/

/-- One pattern check inside a rule (config, rules loader). -/
structure PatternDef where
  ptype : String
  target : String
  pattern : String
  negative : Bool
  excludePattern : String
  deriving DecidableEq, Repr

/-- Rule definition as read from a rules YAML file. -/
structure RuleDefinition where
  ID : String
  Title : String
  Description : String
  Severity : String
  Category : String
  Enabled : Bool
  Tags : List String
  Patterns : List PatternDef
  Remediation : String
  References : List String
  deriving DecidableEq, Repr

/-- User-level override for one rule id. -/
structure RuleOverride where
  Severity : String
  Enabled : Option Bool
  deriving DecidableEq, Repr

/-- The `rules:` section of the configuration.  `Override` is the Go map
id → override, as an association list. -/
structure RulesConfig where
  Disable : List String
  Override : List (String × RuleOverride)
  CustomDirs : List String
  deriving Repr

/-- Severity-override step of `applyOverrides`: `if ov.Severity != ""` the
rule's severity is replaced. -/
def applyOv (ov : RuleOverride) (r : RuleDefinition) : RuleDefinition :=
  if ov.Severity ≠ "" then { r with Severity := ov.Severity } else r

/-- Go `applyOverrides` (config rules loader): drops rules in the disable
list, applies severity overrides, drops rules disabled by an override. -/
def applyOverrides : List RuleDefinition → RulesConfig → List RuleDefinition
  | [], _ => []
  | r :: rest, rc =>
    if rc.Disable.contains r.ID then applyOverrides rest rc
    else
      match List.lookup r.ID rc.Override with
      | some ov =>
        if ov.Enabled = some false then applyOverrides rest rc
        else applyOv ov r :: applyOverrides rest rc
      | none => r :: applyOverrides rest rc

/-- Go `LoadAllRules` on already-read rule files: the rules parsed from
`~/.ward/rules` followed by the rules parsed from each configured custom
directory, with `applyOverrides` applied.  (The YAML parsing and directory
walking are filesystem I/O; the lists are their results.) -/
def loadAllRules (dirRules : List RuleDefinition)
    (customDirRules : List (List RuleDefinition)) (rc : RulesConfig) : List RuleDefinition :=
  applyOverrides (dirRules ++ customDirRules.flatten) rc

/-- Scanner roster built at the top of `Orchestrator.Run` (orchestrator.go
lines 52-69), before the enable/disable lists are applied: the three fixed
scanners, plus the rules scanner when `LoadAllRules` succeeded with a
non-empty list.  The argument is the outcome of `LoadAllRules`. -/
def buildRoster (loaded : Except String (List RuleDefinition)) : List String :=
  let fixed := ["env-scanner", "config-scanner", "dependency-scanner"]
  match loaded with
  | .error _ => fixed
  | .ok customRules => if customRules.length > 0 then fixed ++ ["rules-scanner"] else fixed

/-! ### internal/provider/git.go -/

/-- Depth stored by `NewGitProvider`: non-positive depths are coerced to 1. -/
def newGitProviderDepth (depth : Int) : Int :=
  if depth ≤ 0 then 1 else depth

/-- Argument list of the `git` subprocess built by `GitProvider.Acquire`. -/
def gitCloneArgs (depth : Int) (repoURL tmpDir : String) : List String :=
  (["clone"] ++ (if depth > 0 then ["--depth", toString depth] else [])) ++ [repoURL, tmpDir]

/-! ### internal/scanner/env: checkEnvExample -/

/-- Sensitive keys checked in `.env.example` (env scanner). -/
def sensitiveKeys : List String :=
  ["DB_PASSWORD", "MAIL_PASSWORD", "AWS_SECRET_ACCESS_KEY", "REDIS_PASSWORD", "PUSHER_APP_SECRET"]

/-- Byte values rendered back as characters (used for the two-byte mask ends;
Go slices bytes, which coincides with this for ASCII values — a slice that
cuts a rune produces invalid UTF-8 on the Go side, unrepresentable here). -/
def bytesAsChars (bs : List Nat) : String :=
  String.mk (bs.map Char.ofNat)

/-- Go `maskValue` (env scanner): first two and last two bytes around stars. -/
def maskValue (val : String) : String :=
  let bs := strBytes val
  if bs.length ≤ 4 then "****"
  else bytesAsChars (bs.take 2) ++ String.mk (List.replicate (bs.length - 4) '*') ++
    bytesAsChars (bs.drop (bs.length - 2))

/-- ENV-008 finding as constructed by `checkEnvExample`. -/
def env008Finding (key val : String) (line : Int) : Finding where
  ID := "ENV-008"
  Title := "Potential real credential in .env.example: " ++ key
  Description := "The .env.example file contains a value for " ++ key ++
    " that doesn\x27t look like a placeholder. This file is typically committed to " ++
    "version control and should only contain example/placeholder values."
  Severity := .medium
  Category := "Secrets"
  Scanner := "env-scanner"
  File := ".env.example"
  Line := line
  CodeSnippet := key ++ "=" ++ maskValue val
  Remediation := "Replace the value of " ++ key ++ " in .env.example with a placeholder like " ++
    "\x27your_" ++ goToLower key ++ "_here\x27."
  References := ["https://cwe.mitre.org/data/definitions/798.html"]

/-- Loop of `checkEnvExample` over the sensitive keys.  `vars` is the map
parsed from `.env.example` by `readEnvFile`; `lineOf` is the `findLine`
lookup on that file (both are filesystem reads, passed in as data). -/
def checkEnvExampleLoop (vars : List (String × String)) (lineOf : String → Int) :
    List String → List Finding
  | [] => []
  | key :: rest =>
    match List.lookup key vars with
    | none => checkEnvExampleLoop vars lineOf rest
    | some val =>
      if val = "" then checkEnvExampleLoop vars lineOf rest
      else
        let lower := goToLower val
        if lower = "null" ∨ lower = "secret" ∨ lower = "password" ∨
            lower = "your_password_here" ∨ lower = "changeme" then
          checkEnvExampleLoop vars lineOf rest
        else if 6 < byteLen val then
          env008Finding key val (lineOf key) :: checkEnvExampleLoop vars lineOf rest
        else checkEnvExampleLoop vars lineOf rest

/-- Go `Scanner.checkEnvExample` (env scanner), over the parsed file. -/
def checkEnvExample (vars : List (String × String)) (lineOf : String → Int) : List Finding :=
  checkEnvExampleLoop vars lineOf sensitiveKeys

/-- Placeholder predicate as the specification words it: `null`, `secret`,
`password`, `changeme`, and any string of the shape `your_*_here`.  Written
from the spec, for comparison against the code. -/
def specPlaceholder (v : String) : Bool :=
  let lower := goToLower v
  lower == "null" || lower == "secret" || lower == "password" || lower == "changeme" ||
    (goHasPre lower "your_" && goHasSuf lower "_here")

/-- Placeholder list actually recognized by the code (amended claim). -/
def env008Placeholders : List String :=
  ["null", "secret", "password", "your_password_here", "changeme"]

/-- ENV-008 output as the amended claim words it: one finding per sensitive
key whose value is present, longer than six bytes, and not one of the five
literal placeholders (case-insensitively). -/
def env008Expected (vars : List (String × String)) (lineOf : String → Int) : List Finding :=
  sensitiveKeys.filterMap (fun key =>
    match List.lookup key vars with
    | none => none
    | some val =>
      if 6 < byteLen val ∧ ¬ env008Placeholders.contains (goToLower val) then
        some (env008Finding key val (lineOf key))
      else none)

/-! ### SARIF reporter (results construction of `SARIFReporter.Generate`) -/

/-- Go `severityToSARIFLevel`. -/
def severityToSARIFLevel (s : Severity) : String :=
  match s with
  | .critical => "error"
  | .high => "error"
  | .medium => "warning"
  | _ => "note"

/-- SARIF `artifactLocation` as serialized (both fields always emitted; the
struct has no `omitempty` on `uriBaseId`). -/
structure SarifArtifactLocation where
  uri : String
  uriBaseId : String
  deriving DecidableEq, Repr

/-- SARIF `region`: `startLine` plus the optional `snippet`. -/
structure SarifRegion where
  startLine : Int
  snippet : Option String
  deriving DecidableEq, Repr

/-- SARIF `physicalLocation`. -/
structure SarifPhysicalLocation where
  artifactLocation : SarifArtifactLocation
  region : SarifRegion
  deriving DecidableEq, Repr

/-- SARIF `location`. -/
structure SarifLocation where
  physicalLocation : SarifPhysicalLocation
  deriving DecidableEq, Repr

/-- SARIF `result` (the fields `Generate` populates). -/
structure SarifResult where
  ruleId : String
  ruleIndex : Nat
  level : String
  message : String
  locations : List SarifLocation
  partialFingerprints : Option (List (String × String))
  deriving DecidableEq, Repr

/-- Rule-index table keyed by finding id, assigned in order of first
appearance (the `ruleIndex` map of `Generate`). -/
def buildRuleIndex : List Finding → List (String × Nat) → List (String × Nat)
  | [], acc => acc
  | f :: rest, acc =>
    if (List.lookup f.ID acc).isSome then buildRuleIndex rest acc
    else buildRuleIndex rest (acc ++ [(f.ID, acc.length)])

/-- One SARIF result as built by `Generate` for a finding. -/
def sarifResultOf (idx : List (String × Nat)) (f : Finding) : SarifResult where
  ruleId := f.ID
  ruleIndex := (List.lookup f.ID idx).getD 0
  level := severityToSARIFLevel f.Severity
  message := f.Title
  locations :=
    [⟨⟨⟨f.File, "%SRCROOT%"⟩,
      ⟨max f.Line 1, if f.CodeSnippet ≠ "" then some f.CodeSnippet else none⟩⟩⟩]
  partialFingerprints :=
    if f.References.length > 0 then some [("primaryLocationLineHash", f.ID ++ f.File)] else none

/-- The `results` array of the SARIF document for a report's findings. -/
def sarifResults (findings : List Finding) : List SarifResult :=
  findings.map (sarifResultOf (buildRuleIndex findings []))

/-! ### internal/scanner/dependency -/

/-- An HTTP exchange outcome: transport error, or a status code with the
decoded JSON body (`none` when the body fails to unmarshal). -/
inductive HttpAnswer (α : Type) where
  | netErr (msg : String)
  | resp (status : Nat) (body : Option α)

/-- OSV advisory event. -/
structure OsvEvent where
  introduced : String
  fixed : String
  deriving DecidableEq, Repr

/-- OSV advisory range. -/
structure OsvRange where
  rtype : String
  events : List OsvEvent
  deriving DecidableEq, Repr

/-- OSV affected package entry. -/
structure OsvAffected where
  pkgName : String
  ranges : List OsvRange
  deriving DecidableEq, Repr

/-- OSV reference. -/
structure OsvReference where
  rtype : String
  url : String
  deriving DecidableEq, Repr

/-- OSV vulnerability record (the decoded `/v1/query` response entry). -/
structure OsvVuln where
  id : String
  summary : String
  details : String
  aliases : List String
  references : List OsvReference
  affected : List OsvAffected
  dbSeverity : String
  deriving DecidableEq, Repr

/-- Go `normalizeVersion` (dependency scanner). -/
def normalizeVersion (v : String) : String :=
  let v1 := goTrimPre v "v"
  let v2 := goTrimPre v1 "V"
  if goHasPre v2 "dev-" ∨ v2 = "" then "" else v2

/-- Go `parseSeverity` (dependency scanner; upper-case comparisons). -/
def depParseSeverity (s : String) : Severity :=
  let u := goToUpper s
  if u = "CRITICAL" then .critical
  else if u = "HIGH" then .high
  else if u = "MODERATE" ∨ u = "MEDIUM" then .medium
  else if u = "LOW" then .low
  else .medium

/-- Go `extractFixedVersion`: first non-empty `Fixed` event of the first
matching affected entry that has one. -/
def extractFixedVersion (affected : List OsvAffected) (pkgName : String) : String :=
  (affected.findSome? (fun a =>
    if a.pkgName = pkgName then
      a.ranges.findSome? (fun r =>
        r.events.findSome? (fun e => if e.fixed ≠ "" then some e.fixed else none))
    else none)).getD ""

/-- Greedy character take fitting within `n` UTF-8 bytes (Go `s[:n]`; a Go
slice that cuts a rune yields invalid UTF-8, unrepresentable here). -/
def takeBytesChars : Nat → List Char → List Char
  | _, [] => []
  | n, c :: rest =>
    let k := (utf8Bytes c).length
    if k ≤ n then c :: takeBytesChars (n - k) rest else []

/-- Byte-level prefix of a string (Go string slicing `s[:n]`). -/
def goBytePref (s : String) (n : Nat) : String :=
  String.mk (takeBytesChars n s.data)

/-- Go `vulnToFinding` (dependency scanner). -/
def vulnToFinding (scanner pkgName pkgVersion : String) (vuln : OsvVuln) : Finding :=
  let cveID := ((vuln.aliases.find? (fun a => goHasPre a "CVE-")).getD vuln.id)
  let severity := depParseSeverity vuln.dbSeverity
  let fixedVersion := extractFixedVersion vuln.affected pkgName
  let refs0 := (vuln.references.filter (fun r => r.rtype == "ADVISORY" || r.rtype == "WEB")).map
    (fun r => r.url)
  let refs := if 3 < refs0.length then refs0.take 3 else refs0
  let description :=
    if vuln.summary = "" ∧ 0 < byteLen vuln.details then
      (if 300 < byteLen vuln.details then goBytePref vuln.details 300 ++ "..." else vuln.details)
    else vuln.summary
  let remediation :=
    if fixedVersion ≠ "" then
      "Upgrade " ++ pkgName ++ " to " ++ fixedVersion ++ " or later:\n  composer require " ++
        pkgName ++ ":" ++ fixedVersion
    else "Run: composer update " ++ pkgName
  { ID := cveID
    Title := "[" ++ cveID ++ "] " ++ pkgName ++ "@" ++ pkgVersion ++ " — " ++ vuln.summary
    Description := description
    Severity := severity
    Category := "Dependencies"
    Scanner := scanner
    File := "composer.lock"
    Line := 0
    CodeSnippet := ""
    Remediation := remediation
    References := refs }

/-- Affected package with its normalized version (`vulnPackage`). -/
structure VulnPackage where
  name : String
  version : String
  deriving DecidableEq, Repr

/-- Query/order list built by `batchQuery` from the installed-package map
(association list in iteration order): packages whose version normalizes to
non-empty. -/
def buildQueries (pkgs : List (String × String)) : List VulnPackage :=
  pkgs.filterMap (fun p =>
    let nv := normalizeVersion p.2
    if nv = "" then none else some ⟨p.1, nv⟩)

/-- Affected collection for one batch response: index `j` of the results with
a non-empty `vulns` array marks `batchOrder[j]` (the bounds guard is the
`j < len(batchOrder)` check). -/
def collectAffected (results : List (List String)) (batchOrder : List VulnPackage) :
    List VulnPackage :=
  results.enum.filterMap (fun jr => if jr.2.length > 0 then batchOrder.get? jr.1 else none)

/-- Batch-request loop of `batchQuery`.  `ba i` answers the `i`-th POST to
`/v1/querybatch`; a transport error, a non-200 status, or an undecodable body
aborts with an error (the unmarshal error text is abstracted). -/
def processBatches : List (List VulnPackage) → Nat → (Nat → HttpAnswer (List (List String))) →
    Except String (List VulnPackage)
  | [], _, _ => .ok []
  | batch :: rest, i, ba =>
    match ba i with
    | .netErr e => .error e
    | .resp status body =>
      if status ≠ 200 then .error ("OSV.dev returned status " ++ toString status)
      else
        match body with
        | none => .error "parsing OSV.dev response"
        | some results =>
          match processBatches rest (i + 1) ba with
          | .error e => .error e
          | .ok more => .ok (collectAffected results batch ++ more)

/-- Go `Scanner.batchQuery`: batches of at most 100 queries against the OSV
batch endpoint, collecting the affected packages in order. -/
def batchQuery (pkgs : List (String × String)) (ba : Nat → HttpAnswer (List (List String))) :
    Except String (List VulnPackage) :=
  processBatches (chunkList 100 (buildQueries pkgs)) 0 ba

/-- Go `Scanner.queryPackage`: one POST to `/v1/query`; transport errors,
non-200 statuses and undecodable bodies are errors. -/
def queryPackage (qa : String → String → HttpAnswer (List OsvVuln)) (name version : String) :
    Except String (List OsvVuln) :=
  match qa name version with
  | .netErr e => .error e
  | .resp status body =>
    if status ≠ 200 then .error ("OSV.dev returned status " ++ toString status)
    else
      match body with
      | none => .error "json unmarshal error"
      | some vulns => .ok vulns

/-- Detail loop of `Scan`: per-package query errors are skipped (`continue`),
successful queries contribute one finding per advisory. -/
def detailLoop (qa : String → String → HttpAnswer (List OsvVuln)) :
    List VulnPackage → List Finding
  | [] => []
  | vp :: rest =>
    match queryPackage qa vp.name vp.version with
    | .error _ => detailLoop qa rest
    | .ok vulns =>
      vulns.map (vulnToFinding "dependency-scanner" vp.name vp.version) ++ detailLoop qa rest

/-- Go `Scanner.Scan` (dependency scanner): empty package map short-circuits;
a batch failure aborts with a wrapped error; otherwise the per-package detail
phase runs. -/
def depScan (pkgs : List (String × String)) (ba : Nat → HttpAnswer (List (List String)))
    (qa : String → String → HttpAnswer (List OsvVuln)) : Except String (List Finding) :=
  if pkgs.length = 0 then .ok []
  else
    match batchQuery pkgs ba with
    | .error e => .error ("querying OSV.dev: " ++ e)
    | .ok vulnPackages =>
      if vulnPackages.length = 0 then .ok []
      else .ok (detailLoop qa vulnPackages)

/-! ## Theorems -/

/-! ### C1: baseline round trip -/

lemma filterLoop_all_suppressed (bb : Baseline) (fps : List String)
    (hf : bb.fingerprints = some fps) :
    ∀ T : List Finding, (∀ f ∈ T, f.fingerprint ∈ fps) → filterLoop bb T = ([], T.length) := by
  intro T
  induction T with
  | nil => intro _; rfl
  | cons f rest ih =>
    intro h
    have hfm : f.fingerprint ∈ fps := h f (List.mem_cons_self f rest)
    have hrest := ih (fun g hg => h g (List.mem_cons_of_mem f hg))
    have hb : isBaselined (some bb) f = true := by
      show (match bb.fingerprints with
        | none => false
        | some fps => fps.contains f.fingerprint) = true
      rw [hf]
      simpa using hfm
    simp only [filterLoop, hrest, hb, if_pos]
    rfl

/-- C1: saving a baseline from any finding list `S`, reloading it and
filtering `S` through it suppresses everything — the kept list is empty and
the suppressed count is `|S|` — and the nil baseline is the identity filter. -/
theorem baseline_roundtrip_suppresses_all (now : Nat) (S : List Finding) :
    baselineFilter (some (baselineLoad (baselineSave now S))) S = ([], S.length) ∧
    baselineFilter none S = (S, 0) := by
  constructor
  · have hf : (baselineLoad (baselineSave now S)).fingerprints =
        some (S.map (fun f => f.fingerprint)) := by
      simp [baselineLoad, baselineSave, entryOf]
    have := filterLoop_all_suppressed (baselineLoad (baselineSave now S))
      (S.map (fun f => f.fingerprint)) hf S
      (fun f hfS => List.mem_map_of_mem (fun g => g.fingerprint) hfS)
    simpa [baselineFilter] using this
  · rfl

/-! ### C2: fingerprint depends only on id, file, line -/

/-- C2: the fingerprint of a finding is a function of its `ID`, `File` and
`Line` alone; two findings agreeing on those three fields have equal
fingerprints, whatever their other fields are. -/
theorem fingerprint_depends_only_on_id_file_line (f g : Finding)
    (h1 : f.ID = g.ID) (h2 : f.File = g.File) (h3 : f.Line = g.Line) :
    f.fingerprint = g.fingerprint := by
  unfold Finding.fingerprint
  rw [h1, h2, h3]

/-- Two findings agreeing on `ID`, `File`, `Line` but differing in title,
description, severity, scanner, snippet, remediation and references. -/
def c2left : Finding :=
  ⟨"ENV-002", "APP_DEBUG is enabled", "old text", .high, "Configuration", "env-scanner",
   ".env", 2, "APP_DEBUG=true", "Set APP_DEBUG=false", []⟩

/-- Companion of `c2left` with every non-identity field changed. -/
def c2right : Finding :=
  ⟨"ENV-002", "different title", "new text", .low, "Other", "rules-scanner",
   ".env", 2, "snippet", "other remediation", ["https://example.com"]⟩

/-- Witness for C2 at two concrete findings differing in all other fields. -/
theorem fingerprint_depends_only_on_id_file_line_witness :
    c2left.Title ≠ c2right.Title ∧ c2left.Severity ≠ c2right.Severity ∧
    c2left.fingerprint = c2right.fingerprint :=
  ⟨by decide, by decide, fingerprint_depends_only_on_id_file_line c2left c2right rfl rfl rfl⟩

/-! ### C5: git clone depth -/

/-- C5 (code evaluation): with `gitDepth = 0` the provider does not run a
full-history clone — `NewGitProvider` coerces the depth to 1, so `Acquire`
passes `--depth 1` to git; negative depths are also coerced to 1, and
positive depths are used as given. -/
theorem git_depth_zero_clones_depth_one :
    gitCloneArgs (newGitProviderDepth 0) "https://example.com/app.git" "/tmp/ward-scan-1" =
      ["clone", "--depth", "1", "https://example.com/app.git", "/tmp/ward-scan-1"] ∧
    newGitProviderDepth (-3) = 1 ∧ newGitProviderDepth 5 = 5 := by
  refine ⟨?_, by decide, by decide⟩
  rfl

/-! ### C7: SARIF location shape -/

/-- A line-0 finding carrying a reference (the ENV-001 shape). -/
def c7finding : Finding :=
  ⟨"ENV-001", "No .env file found", "The project has no .env file.", .info, "Configuration",
   "env-scanner", ".env", 0, "", "Copy .env.example to .env.",
   ["https://owasp.org/Top10/A05_2021-Security_Misconfiguration/"]⟩

/-- C7 (code evaluation): the SARIF result generated for a line-0 finding
clamps `startLine` to 1 as claimed, but its `artifactLocation` does not omit
`uriBaseId` — the code fills it with the literal `%SRCROOT%` (the repository's
own reporter test asserts this field must be empty). -/
theorem sarif_location_eval :
    (sarifResults [c7finding]).map (fun r => r.locations.map (fun loc =>
      (loc.physicalLocation.artifactLocation.uri,
       loc.physicalLocation.artifactLocation.uriBaseId,
       loc.physicalLocation.region.startLine))) = [[(".env", "%SRCROOT%", 1)]] := by
  decide

/-! ### Deduplication lemmas (C3 and C10) -/

lemma dedupLoop_cons_seen {f : Finding} {seen : List String} (h : goKey f ∈ seen)
    (rest : List Finding) : dedupLoop (f :: rest) seen = dedupLoop rest seen := by
  simp [dedupLoop, h]

lemma dedupLoop_cons_new {f : Finding} {seen : List String} (h : goKey f ∉ seen)
    (rest : List Finding) :
    dedupLoop (f :: rest) seen = f :: dedupLoop rest (goKey f :: seen) := by
  simp [dedupLoop, h]

lemma dedupLoop_sublist (l : List Finding) :
    ∀ seen, List.Sublist (dedupLoop l seen) l := by
  induction l with
  | nil => intro _; exact List.Sublist.refl _
  | cons f rest ih =>
    intro seen
    by_cases h : goKey f ∈ seen
    · rw [dedupLoop_cons_seen h]
      exact (ih seen).cons f
    · rw [dedupLoop_cons_new h]
      exact (ih (goKey f :: seen)).cons₂ f

lemma mem_dedupLoop_not_seen (l : List Finding) :
    ∀ seen g, g ∈ dedupLoop l seen → goKey g ∉ seen := by
  induction l with
  | nil => intro seen g hg; simp [dedupLoop] at hg
  | cons f rest ih =>
    intro seen g hg
    by_cases h : goKey f ∈ seen
    · rw [dedupLoop_cons_seen h] at hg
      exact ih seen g hg
    · rw [dedupLoop_cons_new h] at hg
      rcases List.mem_cons.mp hg with h1 | h2
      · subst h1; exact h
      · intro hmem
        exact ih (goKey f :: seen) g h2 (List.mem_cons_of_mem _ hmem)

lemma dedupLoop_pairwise_keys (l : List Finding) :
    ∀ seen, (dedupLoop l seen).Pairwise (fun f g => goKey f ≠ goKey g) := by
  induction l with
  | nil => intro _; exact List.Pairwise.nil
  | cons f rest ih =>
    intro seen
    by_cases h : goKey f ∈ seen
    · rw [dedupLoop_cons_seen h]
      exact ih seen
    · rw [dedupLoop_cons_new h]
      refine List.Pairwise.cons ?_ (ih (goKey f :: seen))
      intro g hg hkey
      exact mem_dedupLoop_not_seen rest (goKey f :: seen) g hg (by simp [hkey])

lemma mem_dedupLoop_iff (l : List Finding) :
    ∀ seen g, g ∈ dedupLoop l seen ↔
      goKey g ∉ seen ∧ l.find? (fun f => goKey f == goKey g) = some g := by
  induction l with
  | nil => intro seen g; simp [dedupLoop]
  | cons f rest ih =>
    intro seen g
    by_cases hseen : goKey f ∈ seen
    · rw [dedupLoop_cons_seen hseen, ih seen g]
      by_cases hk : goKey f = goKey g
      · rw [List.find?_cons_of_pos (p := fun f0 => goKey f0 == goKey g) _ (by simp [hk])]
        have hgseen : goKey g ∈ seen := hk ▸ hseen
        constructor
        · rintro ⟨hg, _⟩; exact absurd hgseen hg
        · rintro ⟨hg, _⟩; exact absurd hgseen hg
      · rw [List.find?_cons_of_neg (p := fun f0 => goKey f0 == goKey g) _ (by simp [hk])]
    · rw [dedupLoop_cons_new hseen, List.mem_cons, ih (goKey f :: seen) g]
      by_cases hk : goKey f = goKey g
      · rw [List.find?_cons_of_pos (p := fun f0 => goKey f0 == goKey g) _ (by simp [hk])]
        constructor
        · rintro (hgf | ⟨hg, _⟩)
          · subst hgf
            exact ⟨hseen, rfl⟩
          · exact absurd (by simp [← hk]) hg
        · rintro ⟨_, hsome⟩
          exact Or.inl (Option.some.inj hsome).symm
      · rw [List.find?_cons_of_neg (p := fun f0 => goKey f0 == goKey g) _ (by simp [hk])]
        constructor
        · rintro (hgf | ⟨hg, hfind⟩)
          · exact absurd (by rw [hgf]) hk
          · exact ⟨fun hm => hg (List.mem_cons_of_mem _ hm), hfind⟩
        · rintro ⟨hg, hfind⟩
          refine Or.inr ⟨?_, hfind⟩
          intro hm
          rcases List.mem_cons.mp hm with h1 | h2
          · exact hk h1.symm
          · exact hg h2

/-! ### C3: Post-Process postcondition -/

/-- C3: after `deduplicate` followed by `filterBySeverity`, no two findings
share the same `(id, file, line)` triple and every finding's severity is at
least the configured minimum. -/
theorem postprocess_dedup_and_min_severity (findings : List Finding) (minSev : Severity) :
    (filterBySeverity (deduplicate findings) minSev).Pairwise
      (fun f g => ¬ (f.ID = g.ID ∧ f.File = g.File ∧ f.Line = g.Line)) ∧
    ∀ f ∈ filterBySeverity (deduplicate findings) minSev,
      minSev.toNat ≤ f.Severity.toNat := by
  have hkeys : (deduplicate findings).Pairwise (fun f g => goKey f ≠ goKey g) :=
    dedupLoop_pairwise_keys findings []
  constructor
  · have hsub : (filterBySeverity (deduplicate findings) minSev).Pairwise
        (fun f g => goKey f ≠ goKey g) := by
      unfold filterBySeverity
      split
      · exact hkeys
      · exact hkeys.sublist (List.filter_sublist _)
    refine hsub.imp ?_
    intro a b hne
    rintro ⟨h1, h2, h3⟩
    exact hne (by unfold goKey; rw [h1, h2, h3])
  · intro f hf
    unfold filterBySeverity at hf
    split at hf
    · rename_i hinfo
      rw [hinfo]
      exact Nat.zero_le _
    · have := (List.mem_filter.mp hf).2
      simpa using this

/-- Witness for C3 at a concrete duplicate-bearing list and minimum `high`. -/
theorem postprocess_dedup_and_min_severity_witness :
    (filterBySeverity
        (deduplicate [(⟨"CFG-001", "", "", .high, "", "", "config/app.php", 5, "", "", []⟩ :
          Finding), ⟨"CFG-001", "", "", .low, "", "", "config/app.php", 5, "", "", []⟩])
        Severity.high).Pairwise
      (fun f g => ¬ (f.ID = g.ID ∧ f.File = g.File ∧ f.Line = g.Line)) ∧
    ∀ f ∈ filterBySeverity
        (deduplicate [(⟨"CFG-001", "", "", .high, "", "", "config/app.php", 5, "", "", []⟩ :
          Finding), ⟨"CFG-001", "", "", .low, "", "", "config/app.php", 5, "", "", []⟩])
        Severity.high,
      Severity.high.toNat ≤ f.Severity.toNat :=
  postprocess_dedup_and_min_severity _ _

/-! ### C10: deduplicate keeps the first occurrence per key -/

/-- C10 (amended): `deduplicate` returns a subsequence of its input in which
a finding survives exactly when it is the first input element carrying its
deduplication key `id + "|" + file + "|" + line` — which coincides with the
`(id, file, line)` triple only when ids and files contain no `|`. -/
theorem deduplicate_keeps_first_per_key (findings : List Finding) :
    List.Sublist (deduplicate findings) findings ∧
    ∀ g, g ∈ deduplicate findings ↔
      findings.find? (fun f => goKey f == goKey g) = some g := by
  constructor
  · exact dedupLoop_sublist findings []
  · intro g
    rw [show deduplicate findings = dedupLoop findings [] from rfl, mem_dedupLoop_iff]
    simp

/-- Witness for C10 at a concrete two-element list with a repeated key. -/
theorem deduplicate_keeps_first_per_key_witness :
    List.Sublist
      (deduplicate [(⟨"A", "", "", .info, "", "", "f.php", 3, "", "", []⟩ : Finding),
        ⟨"A", "x", "", .high, "", "", "f.php", 3, "", "", []⟩])
      [(⟨"A", "", "", .info, "", "", "f.php", 3, "", "", []⟩ : Finding),
        ⟨"A", "x", "", .high, "", "", "f.php", 3, "", "", []⟩] ∧
    ∀ g, g ∈ deduplicate [(⟨"A", "", "", .info, "", "", "f.php", 3, "", "", []⟩ : Finding),
        ⟨"A", "x", "", .high, "", "", "f.php", 3, "", "", []⟩] ↔
      List.find? (fun f => goKey f == goKey g)
        [(⟨"A", "", "", .info, "", "", "f.php", 3, "", "", []⟩ : Finding),
          ⟨"A", "x", "", .high, "", "", "f.php", 3, "", "", []⟩] = some g :=
  deduplicate_keeps_first_per_key _

/-- Key-colliding finding with a `|` inside the id. -/
def c10pipeLeft : Finding := ⟨"a|b", "", "", .info, "", "", "c", 1, "", "", []⟩

/-- Key-colliding finding with a `|` inside the file; its `(id, file, line)`
triple differs from `c10pipeLeft`, yet both have key `a|b|c|1`. -/
def c10pipeRight : Finding := ⟨"a", "", "", .info, "", "", "b|c", 1, "", "", []⟩

/-- Counterexample to C10 as stated: `c10pipeRight` is the only (hence first)
input finding carrying the triple `("a", "b|c", 1)`, but `deduplicate` drops
it because its key string collides with `c10pipeLeft`. -/
theorem deduplicate_triple_counterexample :
    deduplicate [c10pipeLeft, c10pipeRight] = [c10pipeLeft] ∧
    c10pipeLeft.ID ≠ c10pipeRight.ID := by
  decide

/-! ### C4: scanner roster -/

/-- A loaded rule whose `enabled` flag is false. -/
def c4disabledRule : RuleDefinition :=
  ⟨"WARD-X01", "Disabled check", "", "low", "Custom", false, [], [], "", []⟩

/-- Counterexample to C4 as stated: a rule file containing a single rule with
`enabled: false` yields zero enabled rules, yet the roster still gains the
rules scanner — `Run` tests only the length of the loaded list; also the fixed
part of the roster is three scanners, not four. -/
theorem roster_counterexample :
    buildRoster (.ok [c4disabledRule]) =
      ["env-scanner", "config-scanner", "dependency-scanner", "rules-scanner"] ∧
    ([c4disabledRule].filter (fun r => r.Enabled)).length = 0 := by
  decide

/-- C4 (amended): the roster is the three fixed scanners (`env-scanner`,
`config-scanner`, `dependency-scanner`), extended by the rules scanner exactly
when rule loading succeeded with at least one rule definition, enabled or
not. -/
theorem roster_fixed_plus_rules (loaded : Except String (List RuleDefinition)) :
    (buildRoster loaded = ["env-scanner", "config-scanner", "dependency-scanner"] ∨
      buildRoster loaded =
        ["env-scanner", "config-scanner", "dependency-scanner", "rules-scanner"]) ∧
    (buildRoster loaded =
        ["env-scanner", "config-scanner", "dependency-scanner", "rules-scanner"] ↔
      ∃ rules, loaded = .ok rules ∧ rules ≠ []) := by
  cases loaded with
  | error e =>
    refine ⟨Or.inl rfl, ?_, ?_⟩
    · intro h
      simp [buildRoster] at h
    · rintro ⟨rules, h, _⟩
      simp at h
  | ok rules =>
    cases rules with
    | nil =>
      refine ⟨Or.inl rfl, ?_, ?_⟩
      · intro h
        simp [buildRoster] at h
      · rintro ⟨rules, h, hne⟩
        simp at h
        exact absurd h.symm (fun hh => hne hh.symm)
    | cons r rs =>
      refine ⟨Or.inr ?_, ?_, ?_⟩
      · simp [buildRoster]
      · intro _
        exact ⟨r :: rs, rfl, List.cons_ne_nil r rs⟩
      · intro _
        simp [buildRoster]

/-- Witness for C4 at a concrete failed load. -/
theorem roster_fixed_plus_rules_witness :
    (buildRoster (.error "no rules directory") =
        ["env-scanner", "config-scanner", "dependency-scanner"] ∨
      buildRoster (.error "no rules directory") =
        ["env-scanner", "config-scanner", "dependency-scanner", "rules-scanner"]) ∧
    (buildRoster (.error "no rules directory") =
        ["env-scanner", "config-scanner", "dependency-scanner", "rules-scanner"] ↔
      ∃ rules, (.error "no rules directory" :
        Except String (List RuleDefinition)) = .ok rules ∧ rules ≠ []) :=
  roster_fixed_plus_rules _

/-! ### C9: non-empty rule ids -/

lemma applyOv_ID (ov : RuleOverride) (r : RuleDefinition) : (applyOv ov r).ID = r.ID := by
  unfold applyOv
  split <;> rfl

lemma applyOverrides_id_origin (rules : List RuleDefinition) (rc : RulesConfig) :
    ∀ r ∈ applyOverrides rules rc, ∃ r0 ∈ rules, r.ID = r0.ID := by
  induction rules with
  | nil => intro r hr; simp [applyOverrides] at hr
  | cons x rest ih =>
    intro r hr
    unfold applyOverrides at hr
    split at hr
    · obtain ⟨r0, hr0, hid⟩ := ih r hr
      exact ⟨r0, List.mem_cons_of_mem x hr0, hid⟩
    · split at hr
      · split at hr
        · obtain ⟨r0, hr0, hid⟩ := ih r hr
          exact ⟨r0, List.mem_cons_of_mem x hr0, hid⟩
        · rcases List.mem_cons.mp hr with h1 | h2
          · exact ⟨x, List.mem_cons_self x rest, by rw [h1, applyOv_ID]⟩
          · obtain ⟨r0, hr0, hid⟩ := ih r h2
            exact ⟨r0, List.mem_cons_of_mem x hr0, hid⟩
      · rcases List.mem_cons.mp hr with h1 | h2
        · exact ⟨x, List.mem_cons_self x rest, by rw [h1]⟩
        · obtain ⟨r0, hr0, hid⟩ := ih r h2
          exact ⟨r0, List.mem_cons_of_mem x hr0, hid⟩

/-- C9 (amended): rule loading never invents or empties an id — provided every
rule definition read from the rule files has a non-empty id, every rule in the
loaded list has a non-empty id.  The loader itself does not enforce this. -/
theorem loadAllRules_ids_nonempty (dirRules : List RuleDefinition)
    (customDirRules : List (List RuleDefinition)) (rc : RulesConfig)
    (h : ∀ r ∈ dirRules ++ customDirRules.flatten, r.ID ≠ "") :
    ∀ r ∈ loadAllRules dirRules customDirRules rc, r.ID ≠ "" := by
  intro r hr
  obtain ⟨r0, hr0, hid⟩ := applyOverrides_id_origin _ rc r hr
  rw [hid]
  exact h r0 hr0

/-- A rule definition with an empty id, as YAML without an `id:` field
unmarshals. -/
def c9emptyIdRule : RuleDefinition :=
  ⟨"", "Model without fillable guard", "", "medium", "Models", true, [], [], "", []⟩

/-- Empty rules configuration (no disables, no overrides). -/
def c9config : RulesConfig := ⟨[], [], []⟩

/-- Counterexample to C9 as stated: a loaded rule with an empty id survives
`LoadAllRules` untouched — nothing validates ids. -/
theorem loadAllRules_empty_id_counterexample :
    c9emptyIdRule ∈ loadAllRules [c9emptyIdRule] [] c9config ∧ c9emptyIdRule.ID = "" := by
  decide

/-- A well-formed rule definition. -/
def c9goodRule : RuleDefinition :=
  ⟨"SEC-001", "No CSRF middleware", "", "high", "Security", true, [], [], "", []⟩

/-- Witness for the amended C9: at a concrete one-rule load, the id of the
rule that comes out is non-empty. -/
theorem loadAllRules_ids_nonempty_witness : c9goodRule.ID ≠ "" :=
  loadAllRules_ids_nonempty [c9goodRule] [] c9config (by decide) c9goodRule (by decide)

/-! ### C6: ENV-008 trigger -/

lemma env008Placeholders_contains (s : String) :
    env008Placeholders.contains s = true ↔
      s = "null" ∨ s = "secret" ∨ s = "password" ∨ s = "your_password_here" ∨ s = "changeme" := by
  simp [env008Placeholders]

lemma checkEnvExampleLoop_eq (vars : List (String × String)) (lineOf : String → Int) :
    ∀ ks, checkEnvExampleLoop vars lineOf ks =
      ks.filterMap (fun key =>
        match List.lookup key vars with
        | none => none
        | some val =>
          if 6 < byteLen val ∧ ¬ env008Placeholders.contains (goToLower val) then
            some (env008Finding key val (lineOf key))
          else none) := by
  intro ks
  induction ks with
  | nil => rfl
  | cons key rest ih =>
    rw [List.filterMap_cons]
    cases hlk : List.lookup key vars with
    | none =>
      simp only [checkEnvExampleLoop, hlk, ih]
    | some val =>
      by_cases hv : val = ""
      · subst hv
        simp only [checkEnvExampleLoop, hlk, if_pos rfl, ih]
        norm_num [byteLen, strBytes]
      · by_cases hpl : goToLower val = "null" ∨ goToLower val = "secret" ∨
            goToLower val = "password" ∨ goToLower val = "your_password_here" ∨
            goToLower val = "changeme"
        · have hc : env008Placeholders.contains (goToLower val) = true :=
            (env008Placeholders_contains _).mpr hpl
          simp only [checkEnvExampleLoop, hlk, if_neg hv, if_pos hpl, ih, hc]
          simp
        · have hc : ¬ env008Placeholders.contains (goToLower val) = true := by
            rw [env008Placeholders_contains]
            exact hpl
          by_cases hlen : 6 < byteLen val
          · simp only [checkEnvExampleLoop, hlk, if_neg hv, if_neg hpl, if_pos hlen, ih]
            rw [if_pos ⟨hlen, hc⟩]
          · simp only [checkEnvExampleLoop, hlk, if_neg hv, if_neg hpl, if_neg hlen, ih]
            rw [if_neg (fun hh => hlen hh.1)]

/-- C6 (amended): `checkEnvExample` emits an ENV-008 finding for a sensitive
key exactly when the key has a value longer than six bytes that is not one of
the literal placeholders `null`, `secret`, `password`, `your_password_here`,
`changeme` (case-insensitively).  The spec's `your_*_here` family is not
recognized beyond the single literal `your_password_here`. -/
theorem checkEnvExample_placeholder_literals (vars : List (String × String))
    (lineOf : String → Int) :
    checkEnvExample vars lineOf = env008Expected vars lineOf :=
  checkEnvExampleLoop_eq vars lineOf sensitiveKeys

/-- Counterexample to C6 as stated: `your_mail_password_here` has the shape
`your_*_here` — a placeholder per the claim — yet the scanner flags it. -/
theorem env008_placeholder_counterexample :
    specPlaceholder "your_mail_password_here" = true ∧
    (checkEnvExample [("MAIL_PASSWORD", "your_mail_password_here")] (fun _ => 1)).map
      (fun f => f.ID) = ["ENV-008"] := by
  decide

/-! ### C8: dependency-scanner error asymmetry -/

lemma detailLoop_eq_flatMap (qa : String → String → HttpAnswer (List OsvVuln)) :
    ∀ l : List VulnPackage, detailLoop qa l = l.flatMap (fun vp =>
      match queryPackage qa vp.name vp.version with
      | .error _ => []
      | .ok vulns => vulns.map (vulnToFinding "dependency-scanner" vp.name vp.version)) := by
  intro l
  induction l with
  | nil => rfl
  | cons vp rest ih =>
    rw [List.flatMap_cons]
    cases hq : queryPackage qa vp.name vp.version with
    | error e => simp only [detailLoop, hq, ih, List.nil_append]
    | ok vulns => simp only [detailLoop, hq, ih]

/-- C8: a failure of the batch phase (transport error, non-200 status or
undecodable body on `/v1/querybatch`) makes `Scan` return an error, hence no
findings; when the batch phase succeeds, a failing per-package detail request
is swallowed — that package contributes no findings and the remaining affected
packages still contribute theirs. -/
theorem depscan_error_asymmetry (pkgs : List (String × String))
    (ba : Nat → HttpAnswer (List (List String)))
    (qa : String → String → HttpAnswer (List OsvVuln)) :
    (∀ e, batchQuery pkgs ba = .error e → pkgs ≠ [] →
      depScan pkgs ba qa = .error ("querying OSV.dev: " ++ e)) ∧
    (∀ aps, batchQuery pkgs ba = .ok aps → pkgs ≠ [] →
      depScan pkgs ba qa = .ok (aps.flatMap (fun vp =>
        match queryPackage qa vp.name vp.version with
        | .error _ => []
        | .ok vulns => vulns.map (vulnToFinding "dependency-scanner" vp.name vp.version)))) := by
  constructor
  · intro e hb hne
    have hlen : ¬ pkgs.length = 0 := by
      cases pkgs with
      | nil => exact absurd rfl hne
      | cons p rest => simp
    simp only [depScan, if_neg hlen, hb]
  · intro aps hb hne
    have hlen : ¬ pkgs.length = 0 := by
      cases pkgs with
      | nil => exact absurd rfl hne
      | cons p rest => simp
    simp only [depScan, if_neg hlen, hb]
    by_cases haps : aps.length = 0
    · have : aps = [] := List.length_eq_zero.mp haps
      subst this
      simp
    · rw [if_neg haps, detailLoop_eq_flatMap]

/-- The one-package installed map of the end-to-end scenario. -/
def c8pkgs : List (String × String) := [("laravel/framework", "8.10.0")]

/-- Batch endpoint answering 500 to every request. -/
def c8batchFail : Nat → HttpAnswer (List (List String)) := fun _ => .resp 500 none

/-- Batch endpoint marking the single queried package as affected. -/
def c8batchHit : Nat → HttpAnswer (List (List String)) :=
  fun _ => .resp 200 (some [["GHSA-test-1234"]])

/-- Detail endpoint failing with a transport error on every request. -/
def c8queryFail : String → String → HttpAnswer (List OsvVuln) :=
  fun _ _ => .netErr "connection timeout"

/-- Witness for C8: a 500 from the batch endpoint aborts the scan with the
wrapped error, while the same 500-free batch with a failing detail request
yields a successful scan with no findings. -/
theorem depscan_error_asymmetry_witness :
    depScan c8pkgs c8batchFail c8queryFail =
      .error "querying OSV.dev: OSV.dev returned status 500" ∧
    depScan c8pkgs c8batchHit c8queryFail = .ok [] := by
  constructor
  · exact (depscan_error_asymmetry c8pkgs c8batchFail c8queryFail).1
      "OSV.dev returned status 500" (by rfl) (by decide)
  · exact ((depscan_error_asymmetry c8pkgs c8batchHit c8queryFail).2
      [⟨"laravel/framework", "8.10.0"⟩] (by rfl) (by decide)).trans (by rfl)

end Ward
